import Mathlib

/-!
Verification of the vellum-stream upload-and-processing pipeline.

The definitions below are a shallow embedding of the TypeScript sources:
`src/lib/videoStore.ts` (record store), `src/lib/validation` (upload
validator), `src/controllers/video.Controller.ts` (session manager and
direct-upload ingress), `src/controllers/utils/upload-utils.ts`
(prober, transcoder, publisher) and the queue worker
(`startVideoProcessingWorker`).  SQLite rows are modelled as an
association list keyed by the record id; timestamps (`new Date()`
values) are abstract `Nat` clock values supplied by the caller; the
outcomes of external effects (FFmpeg runs, HTTP webhook posts, S3 puts)
are oracle parameters.
-/

namespace VellumStream

/-- Video lifecycle status (`VideoRecord.status` in videoStore.ts). -/
inductive VStatus
  | uploading | processing | completed | failed
deriving DecidableEq, Repr

/-- Webhook callback status (`VideoRecord.callbackStatus` in videoStore.ts). -/
inductive CbStatus
  | pending | completed | failed
deriving DecidableEq, Repr

/-- The persistent record (`VideoRecord` in videoStore.ts).  Timestamps are
abstract clock values; optional columns are `Option`. -/
structure VRecord where
  filename : String
  status : VStatus
  progress : Nat
  streamUrl : Option String := none
  thumbnailUrl : Option String := none
  createdAt : Nat := 0
  completedAt : Option Nat := none
  error : Option String := none
  packager : Option String := none
  callbackUrl : Option String := none
  callbackStatus : CbStatus := .pending
  callbackRetryCount : Nat := 0
  callbackLastAttempt : Option Nat := none
  s3Path : Option String := none
  uploadToS3 : Bool := false
  mp4Url : Option String := none
  uploadType : String := "tus"
deriving DecidableEq, Repr

/-- The videos table: rows keyed by id (id is the primary key; lookups take
the first matching row, like `SELECT ... WHERE id = ?`). -/
abbrev Store := List (String × VRecord)

/-- `getVideoRecord` (videoStore.ts:218): `SELECT * FROM videos WHERE id = ?`. -/
def getVideoRecord (store : Store) (id : String) : Option VRecord :=
  (store.find? (fun kv => kv.1 == id)).map (fun kv => kv.2)

/-- A `Partial<VideoRecord>` patch as passed to `updateVideoRecord`.
A `some` field overwrites the record's field; `none` keeps it.  (The one
call site that passes an explicit `undefined` to clear `error` — the
retry path inside `transcodeAndUpload` — is unreachable in the worker
flow modelled here, because the worker acquires the row first.) -/
structure VPatch where
  filename : Option String := none
  status : Option VStatus := none
  progress : Option Nat := none
  streamUrl : Option String := none
  thumbnailUrl : Option String := none
  error : Option String := none
  callbackStatus : Option CbStatus := none
  callbackRetryCount : Option Nat := none
  callbackLastAttempt : Option Nat := none
  mp4Url : Option String := none
deriving DecidableEq, Repr

/-- The spread `{ ...record, ...updates }` in `updateVideoRecord`. -/
def applyPatch (r : VRecord) (p : VPatch) : VRecord :=
  { r with
    filename := p.filename.getD r.filename
    status := p.status.getD r.status
    progress := p.progress.getD r.progress
    streamUrl := (p.streamUrl.map some).getD r.streamUrl
    thumbnailUrl := (p.thumbnailUrl.map some).getD r.thumbnailUrl
    error := (p.error.map some).getD r.error
    callbackStatus := p.callbackStatus.getD r.callbackStatus
    callbackRetryCount := p.callbackRetryCount.getD r.callbackRetryCount
    callbackLastAttempt := (p.callbackLastAttempt.map some).getD r.callbackLastAttempt
    mp4Url := (p.mp4Url.map some).getD r.mp4Url }

/-- `UPDATE videos SET ... WHERE id = ?`: rewrite every row whose key is `id`. -/
def storeWrite (store : Store) (id : String) (v : VRecord) : Store :=
  store.map (fun kv => if kv.1 == id then (kv.1, v) else kv)

/-- The record written back by `updateVideoRecord`: the merged patch, with
`completedAt` stamped when the patch sets status to completed. -/
def mergedRecord (now : Nat) (r : VRecord) (p : VPatch) : VRecord :=
  let merged := applyPatch r p
  if p.status == some VStatus.completed then { merged with completedAt := some now }
  else merged

/-- `updateVideoRecord` (videoStore.ts:136): read, merge the patch, write
back; returns the merged record, or `undefined` (`none`) when the id is
unknown. -/
def updateVideoRecord (now : Nat) (store : Store) (id : String) (p : VPatch) :
    Store × Option VRecord :=
  match getVideoRecord store id with
  | none => (store, none)
  | some r =>
    (storeWrite store id (mergedRecord now r p), some (mergedRecord now r p))

/-- The WHERE clause of the guarded UPDATE in `safelyTransitionToProcessing`
(videoStore.ts:201-205): `status = 'uploading' OR status = 'failed' OR
(status = 'processing' AND progress <= 10)`. -/
def acquireCond (r : VRecord) : Bool :=
  r.status == VStatus.uploading || r.status == VStatus.failed ||
    (r.status == VStatus.processing && decide (r.progress ≤ 10))

/-- The SET clause of the guarded UPDATE: `status = 'processing', progress = 10`. -/
def acquireRow (r : VRecord) : VRecord :=
  { r with status := VStatus.processing, progress := 10 }

/-- The effect of the guarded UPDATE on the table: rewrite the rows passing
the WHERE clause. -/
def acquireMap (store : Store) (id : String) : Store :=
  store.map (fun kv =>
    if kv.1 == id && acquireCond kv.2 then (kv.1, acquireRow kv.2) else kv)

/-- The `result.changes` row count of the guarded UPDATE. -/
def acquireChanges (store : Store) (id : String) : Nat :=
  (store.filter (fun kv => kv.1 == id && acquireCond kv.2)).length

/-- `safelyTransitionToProcessing` (videoStore.ts:180-216): read the row,
return early on absent / completed / processing-with-progress-over-10,
otherwise run the guarded UPDATE and report success iff it changed rows. -/
def safelyTransitionToProcessing (store : Store) (id : String) :
    Store × Bool × Option VRecord :=
  match getVideoRecord store id with
  | none => (store, false, none)
  | some cur =>
    if cur.status == VStatus.completed then (store, false, some cur)
    else if cur.status == VStatus.processing && decide (cur.progress > 10) then
      (store, false, some cur)
    else
      if 0 < acquireChanges store id then
        (acquireMap store id, true, getVideoRecord (acquireMap store id) id)
      else (store, false, getVideoRecord store id)

/-- The row filter of `getVideosWithPendingCallbacks` (videoStore.ts:259-280):
`callbackUrl IS NOT NULL AND callbackStatus = 'pending' AND
callbackRetryCount < 4 AND status = 'completed'`. -/
def pendingCallbackCond (r : VRecord) : Bool :=
  r.callbackUrl.isSome && r.callbackStatus == CbStatus.pending &&
    decide (r.callbackRetryCount < 4) && r.status == VStatus.completed

/-- `getVideosWithPendingCallbacks`: the rows passing the filter.  (The
source orders the result by `createdAt ASC`; ordering does not affect which
records are selected, which is all the claims here depend on.) -/
def getVideosWithPendingCallbacks (store : Store) : List VRecord :=
  (store.filter (fun kv => pendingCallbackCond kv.2)).map (fun kv => kv.2)

/-! Upload validator (`src/lib/validation`, validateUpload and friends). -/

/-- A validation error.  The source carries `{field, message}` pairs; the
only thing downstream code inspects about the message is whether it contains
the text "File size" (video.Controller.ts:258), which holds exactly for the
two size errors ("File size must be a positive number (bytes)" and
"File size (..MB) exceeds maximum allowed size (..MB)"), so the errors are
modelled as tags. -/
inductive VErr
  | sizeNotPositive | sizeTooLarge | filenameMissing | typeUndeterminable | typeNotAllowed
deriving DecidableEq, Repr

/-- Whether the error's message text contains "File size" — the predicate of
the filter in `createVideoUpload`'s direct branch. -/
def errMessageMentionsFileSize : VErr → Bool
  | .sizeNotPositive => true
  | .sizeTooLarge => true
  | _ => false

/-- Validator configuration: `parseSize(ENV.MAX_FILE_SIZE)` and
`ENV.ALLOWED_FILE_TYPES`. -/
structure ValidationConfig where
  maxFileSizeBytes : Nat
  allowedFileTypes : List String
deriving DecidableEq, Repr

/-- Modelled from the spec: the environment module (`src/lib/environments`)
is not among the sources; §6 gives `MAX_FILE_SIZE` the default `"100mb"`
(`parseSize "100mb" = 100·1024·1024 = 104857600`) and `ALLOWED_FILE_TYPES`
as a comma list of video MIME types, which per §4.2 includes `video/mp4`. -/
def defaultValidationConfig : ValidationConfig :=
  { maxFileSizeBytes := 104857600
    allowedFileTypes :=
      ["video/mp4", "video/webm", "video/quicktime", "video/x-matroska"] }

/-- Lowercased extension after the last dot of a filename, `none` when the
name has no dot (then `mime.lookup` returns `false`). -/
def extensionOf (filename : String) : Option String :=
  let cs := filename.data
  if cs.contains '.' then
    some (String.mk (((cs.reverse.takeWhile (fun c => c != '.')).reverse).map Char.toLower))
  else none

/-- The slice of the `mime-types` lookup table for the extensions relevant
here (the npm package maps extension to MIME type). -/
def mimeLookupTable : List (String × String) :=
  [("mp4", "video/mp4"), ("m4v", "video/x-m4v"), ("mov", "video/quicktime"),
   ("webm", "video/webm"), ("mkv", "video/x-matroska"), ("avi", "video/x-msvideo"),
   ("ts", "video/mp2t"), ("txt", "text/plain")]

/-- `mime.lookup(filename)`. -/
def mimeLookup (filename : String) : Option String :=
  (extensionOf filename).bind fun ext =>
    (mimeLookupTable.find? (fun kv => kv.1 == ext)).map (fun kv => kv.2)

/-- `normalizeMimeType`: maps `application/mp4` to `video/mp4`. -/
def normalizeMimeType (m : String) : String :=
  if m == "application/mp4" then "video/mp4" else m

/-- `validateFileType`: filename nonempty, MIME derivable, MIME allowed. -/
def validateFileType (cfg : ValidationConfig) (filename : String) : List VErr :=
  if filename == "" then [.filenameMissing]
  else
    match mimeLookup filename with
    | none => [.typeUndeterminable]
    | some raw =>
      if cfg.allowedFileTypes.contains (normalizeMimeType raw) then [] else [.typeNotAllowed]

/-- `validateFileSize`: positive and at most the configured maximum.
Sizes are `Nat`; the JS `filesize <= 0` check corresponds to `= 0`. -/
def validateFileSize (cfg : ValidationConfig) (filesize : Nat) : List VErr :=
  if filesize == 0 then [.sizeNotPositive]
  else if decide (filesize > cfg.maxFileSizeBytes) then [.sizeTooLarge]
  else []

/-- `validateUpload`: file-type errors followed by file-size errors. -/
def validateUploadErrors (cfg : ValidationConfig) (filename : String) (filesize : Nat) :
    List VErr :=
  validateFileType cfg filename ++ validateFileSize cfg filesize

/-- `validateUpload(...).isValid`. -/
def validateUploadOk (cfg : ValidationConfig) (filename : String) (filesize : Nat) : Bool :=
  (validateUploadErrors cfg filename filesize).isEmpty

/-- The upload `type` field of the session request. -/
inductive UploadType
  | direct | tus
deriving DecidableEq, Repr

/-- `200 * 1024 * 1024` (video.Controller.ts:243). -/
def maxDirectUploadSize : Nat := 200 * 1024 * 1024

/-- The (filename, filesize, type) acceptance of `createVideoUpload`
(video.Controller.ts:230-277): missing fields are rejected; direct uploads
are capped at 200 MiB and size errors from `validateUpload` are then
filtered out; tus uploads use `validateUpload` unchanged. -/
def createVideoUploadAccepts (cfg : ValidationConfig) (ty : UploadType)
    (filename : String) (filesize : Nat) : Bool :=
  if filename == "" || filesize == 0 then false
  else
    match ty with
    | .direct =>
      if decide (filesize > maxDirectUploadSize) then false
      else
        ((validateUploadErrors cfg filename filesize).filter
          (fun e => !errMessageMentionsFileSize e)).isEmpty
    | .tus => validateUploadOk cfg filename filesize

/-- The second validation pass at ingress: `directUpload` calls
`validateUpload(file.originalname || record.filename, file.size)`
(video.Controller.ts:768-787) with no direct-upload allowance. -/
def directUploadIngressAccepts (cfg : ValidationConfig)
    (filename : String) (filesize : Nat) : Bool :=
  validateUploadOk cfg filename filesize

/-! Codec prober and transcoding strategy (upload-utils.ts). -/

/-- Transcoding strategy. -/
inductive Strategy
  | copy | selective | reencode
deriving DecidableEq, Repr

/-- The HLS-compatible h264 profiles (upload-utils.ts:594 and 614). -/
def hlsVideoProfiles : List String := ["baseline", "main", "high", "constrained baseline"]

/-- `String.prototype.toLowerCase()`. -/
def strToLower (s : String) : String := String.mk (s.data.map Char.toLower)

/-- `isCompatibleWithHls` (upload-utils.ts:586-601).  An absent profile is
the empty string, which is falsy in JS, so `!videoProfile ||` admits it. -/
def isCompatibleWithHls (videoCodec audioCodec videoProfile : String) : Bool :=
  (videoCodec == "h264" &&
    (videoProfile == "" || hlsVideoProfiles.contains (strToLower videoProfile))) &&
  (audioCodec == "aac")

/-- `determineTranscodingStrategy` (upload-utils.ts:606-627). -/
def determineTranscodingStrategy (videoCodec audioCodec videoProfile : String) : Strategy :=
  let isVideoH264Compatible :=
    videoCodec == "h264" &&
      (videoProfile == "" || hlsVideoProfiles.contains (strToLower videoProfile))
  let isAudioAacCompatible := audioCodec == "aac"
  if isVideoH264Compatible && isAudioAacCompatible then .copy
  else if isVideoH264Compatible && !isAudioAacCompatible then .selective
  else .reencode

/-- Probe result (`VideoCodecInfo` in upload-utils.ts). -/
structure VideoCodecInfo where
  videoCodec : String
  audioCodec : String
  videoProfile : String := ""
  containerFormat : String := ""
  isHlsCompatible : Bool
  recommendedStrategy : Strategy
deriving DecidableEq, Repr

/-- The fallback info used when `probeVideoCodecs` throws
(upload-utils.ts:200-206). -/
def probeFailureCodecInfo : VideoCodecInfo :=
  { videoCodec := "unknown", audioCodec := "unknown", containerFormat := "unknown"
    isHlsCompatible := false, recommendedStrategy := .reencode }

/-- `buildOptimizedFFmpegCommand` (upload-utils.ts:636-657). -/
def buildOptimizedFFmpegCommand (strategy : Strategy) (inputPath outputPath : String) :
    String :=
  let baseParams := "-start_number 0 -hls_time 3 -hls_list_size 0 -f hls"
  match strategy with
  | .copy =>
    "ffmpeg -i \"" ++ inputPath ++ "\" -c copy " ++ baseParams ++ " \"" ++ outputPath ++ "\""
  | .selective =>
    "ffmpeg -i \"" ++ inputPath ++ "\" -c:v copy -c:a aac -b:a 128k " ++ baseParams ++
      " \"" ++ outputPath ++ "\""
  | .reencode =>
    "ffmpeg -i \"" ++ inputPath ++ "\" -c:v libx264 -preset medium -crf 23 -c:a aac -b:a 128k " ++
      baseParams ++ " \"" ++ outputPath ++ "\""

def strategyName : Strategy → String
  | .copy => "copy" | .selective => "selective" | .reencode => "reencode"

/-- Outcome of the guarded HLS block of `transcodeAndUpload`: the FFmpeg HLS
commands that were executed (in order) and the error the block threw, if
any. -/
structure HlsStepOutcome where
  executedCmds : List String
  failed : Option String
deriving DecidableEq, Repr

/-- The try/catch around steps 4-7 of `transcodeAndUpload`
(upload-utils.ts:237-324).  `hlsOk` is the success of the primary FFmpeg
run, `restOk` the success of the rest of the guarded block (thumbnail and
playlist verification), `fallbackOk` the success of the one re-encode
fallback.  On any failure inside the block, a strategy of copy or selective
triggers exactly one fallback run of the full re-encode command on the same
input and output; otherwise the error propagates. -/
def runHlsStep (strategy : Strategy) (hlsOk restOk fallbackOk : Bool)
    (localPath outputPath : String) : HlsStepOutcome :=
  let cmd := buildOptimizedFFmpegCommand strategy localPath outputPath
  if hlsOk && restOk then { executedCmds := [cmd], failed := none }
  else if strategy == .copy || strategy == .selective then
    let fallbackCmd := buildOptimizedFFmpegCommand .reencode localPath outputPath
    if fallbackOk then { executedCmds := [cmd, fallbackCmd], failed := none }
    else
      { executedCmds := [cmd, fallbackCmd]
        failed := some "Failed to transcode video with both stream copy and re-encoding" }
  else
    { executedCmds := [cmd]
      failed := some ("Failed to transcode video with " ++ strategyName strategy) }

/-! Progress writes of one worker processing run (C3). -/

/-- Decidable non-decreasing check on a list of progress values. -/
def nonDecreasing : List Nat → Bool
  | [] => true
  | [_] => true
  | a :: b :: rest => decide (a ≤ b) && nonDecreasing (b :: rest)

/-- The progress writes issued by `uploadFile` (upload-utils.ts:101-107):
for uploadedCount = 5, 10, ... it writes
`min (floor((uploadedCount/totalFiles)·15) + 80) 95`, but only when
`totalFiles > 10`.  The JS float `floor` coincides with `Nat` division
here. -/
def uploadFileProgressWrites (totalFiles : Nat) : List Nat :=
  if decide (totalFiles > 10) then
    (List.range (totalFiles / 5)).map (fun k => min ((k + 1) * 5 * 15 / totalFiles + 80) 95)
  else []

/-- The progress writes of the `uploadToS3` MP4 stage
(upload-utils.ts:326-362): when the source container is not already MP4,
`convertToMp4` writes 70 after a successful conversion (line 706); a
successful `uploadMp4ToS3` then writes 85 (line 745).  Failures are caught
and the stage is skipped. -/
def mp4StageWrites (containerIsMp4 convertOk uploadOk : Bool) : List Nat :=
  if containerIsMp4 then (if uploadOk then [85] else [])
  else if convertOk then 70 :: (if uploadOk then [85] else [])
  else []

/-- All progress writes of a successful `transcodeAndUpload` run entered
with status `processing` (so the completed/failed early branches at
lines 150-168 do not fire): 25 (line 182), 60 (line 260), 75 (line 276),
the MP4 stage writes, 85 for copy or 80 otherwise (lines 376-381), the
publisher's interleaved writes, and 95 (line 386). -/
def transcodeProgressWrites (strategy : Strategy)
    (uploadToS3 containerIsMp4 convertOk uploadOk : Bool) (totalFiles : Nat) : List Nat :=
  [25, 60, 75] ++
    (if uploadToS3 then mp4StageWrites containerIsMp4 convertOk uploadOk else []) ++
    [if strategy == .copy then 85 else 80] ++
    uploadFileProgressWrites totalFiles ++ [95]

/-- The full progress-write sequence of one successful worker run: 10 from
`safelyTransitionToProcessing`, the transcoder's writes, then 100 with the
terminal completed update (worker line 129-134). -/
def workerRunProgressWrites (strategy : Strategy)
    (uploadToS3 containerIsMp4 convertOk uploadOk : Bool) (totalFiles : Nat) : List Nat :=
  10 :: transcodeProgressWrites strategy uploadToS3 containerIsMp4 convertOk uploadOk totalFiles
    ++ [100]

/-! Object-store key and URL computation (C8). -/

/-- The JS `s.replace(/^\/|\/$/g, "")`: removes one leading and one
trailing slash (matches are found on the original string, non-overlapping,
so "/" becomes "" and "//" becomes ""). -/
def jsStripEdgeSlashes (s : String) : String :=
  let t := if s.startsWith "/" then s.drop 1 else s
  if t != "" && t.endsWith "/" then t.dropRight 1 else t

/-- The `videoUrl` computed by `createVideoUpload`
(video.Controller.ts:338-341) from the trimmed `cleanS3Path`; `some ""` and
`none` are both JS-falsy. -/
def controllerVideoUrl (bucket endpoint : String) (cleanS3Path : Option String)
    (uploadId : String) : String :=
  let pre :=
    match cleanS3Path with
    | some p => if p == "" then uploadId else jsStripEdgeSlashes p ++ "/" ++ uploadId
    | none => uploadId
  bucket ++ "." ++ endpoint ++ "/" ++ pre ++ "/index.m3u8"

/-- The `streamUrl` returned by `transcodeAndUpload`
(upload-utils.ts:171 and 417) for the same uploadId (`name = uploadId`
when an uploadId is supplied, which the worker always does). -/
def transcoderStreamUrl (bucket endpoint : String) (s3Path : Option String)
    (uploadId : String) : String :=
  let name := uploadId
  let pre :=
    match s3Path with
    | some p => if p == "" then name else jsStripEdgeSlashes p ++ "/" ++ name
    | none => name
  bucket ++ "." ++ endpoint ++ "/" ++ pre ++ "/index.m3u8"

/-! The queue worker (`startVideoProcessingWorker`, src/unnamed/part_000). -/

/-- Outcome of one webhook POST. -/
inductive WebhookOutcome
  | ok200 | non200 | transportError
deriving DecidableEq, Repr

/-- The worker's handling of a webhook response (part_000 lines 157-188 and
236-273): HTTP 200 sets callbackStatus completed and stamps the attempt
time; any other outcome (non-200 status or a thrown transport error) writes
`callbackRetryCount: 1` and stamps the attempt time. -/
def workerWebhookAttempt (now : Nat) (o : WebhookOutcome) (store : Store) (id : String) :
    Store :=
  match o with
  | .ok200 =>
    (updateVideoRecord now store id
      { callbackStatus := some CbStatus.completed, callbackLastAttempt := some now }).1
  | _ =>
    (updateVideoRecord now store id
      { callbackRetryCount := some 1, callbackLastAttempt := some now }).1

/-- Modelled from the spec: the periodic sweeper that drives retries is not
among the sources (only its selection query `getVideosWithPendingCallbacks`
is).  Per §4.9, a non-200 or transport-error attempt does
`callbackRetryCount += 1`, stamps `callbackLastAttempt`, and on reaching
`MAX_CALLBACK_ATTEMPTS = 4` sets `callbackStatus := failed`; an HTTP 200
sets `callbackStatus := completed`. -/
def sweeperAttemptRecord (now : Nat) (o : WebhookOutcome) (r : VRecord) : VRecord :=
  match o with
  | .ok200 => { r with callbackStatus := .completed, callbackLastAttempt := some now }
  | _ =>
    let r2 := { r with callbackRetryCount := r.callbackRetryCount + 1,
                       callbackLastAttempt := some now }
    if decide (4 ≤ r2.callbackRetryCount) then { r2 with callbackStatus := .failed } else r2

/-- The queue message (`VideoProcessingMessage`). -/
structure Job where
  uploadId : String
  filePath : String := ""
  filename : String := ""
  callbackUrl : Option String := none
  s3Path : Option String := none
  uploadToS3 : Bool := false
deriving DecidableEq, Repr

/-- How `JSON.parse(msg.content.toString())` turned out: a throw, the JSON
literal `null`, or a job object. -/
inductive ParseOutcome
  | malformed | nullJob | parsed (j : Job)
deriving DecidableEq, Repr

/-- Channel operations the handler can perform on the delivered message. -/
inductive ChannelAction
  | ack | nack | reject
deriving DecidableEq, Repr

/-- Result of one invocation of the consume handler. -/
structure WorkerResult where
  store : Store
  actions : List ChannelAction
  webhookAttempts : Nat
deriving Repr

/-- The S3 key prefix the worker computes for the thumbnail URL (part_000
lines 123-126) — the same `s3Path ? trimmed/id : id` pattern as the
controller and transcoder. -/
def workerS3Key (s3Path : Option String) (uploadId : String) : String :=
  match s3Path with
  | some p => if p == "" then uploadId else jsStripEdgeSlashes p ++ "/" ++ uploadId
  | none => uploadId

/-- The success tail of the consume handler (part_000 lines 107-190): the
terminal completed update followed by the optional inline webhook attempt
(guarded only by `job.callbackUrl && updatedRecord`). -/
def workerOnSuccess (bucket endpoint : String) (now : Nat) (job : Job)
    (outcome : WebhookOutcome) (st : Store) : WorkerResult :=
  let streamUrl := transcoderStreamUrl bucket endpoint job.s3Path job.uploadId
  let thumbnailUrl :=
    bucket ++ "." ++ endpoint ++ "/" ++ workerS3Key job.s3Path job.uploadId ++ "/thumbnail.jpg"
  let u := updateVideoRecord now st job.uploadId
    { status := some VStatus.completed, progress := some 100,
      streamUrl := some streamUrl, thumbnailUrl := some thumbnailUrl }
  if job.callbackUrl.isSome && u.2.isSome then
    { store := workerWebhookAttempt now outcome u.1 job.uploadId
      actions := [.ack], webhookAttempts := 1 }
  else { store := u.1, actions := [.ack], webhookAttempts := 0 }

/-- The error tail of the consume handler (part_000 lines 192-285): the
failed update followed by the optional inline failure webhook attempt. -/
def workerOnError (now : Nat) (job : Job) (outcome : WebhookOutcome) (st : Store) :
    WorkerResult :=
  let u := updateVideoRecord now st job.uploadId
    { status := some VStatus.failed, error := some "Processing failed" }
  if job.callbackUrl.isSome && u.2.isSome then
    { store := workerWebhookAttempt now outcome u.1 job.uploadId
      actions := [.ack], webhookAttempts := 1 }
  else { store := u.1, actions := [.ack], webhookAttempts := 0 }

/-- The consume handler of `startVideoProcessingWorker` (part_000
lines 43-292) for one delivered message.  `processOk` is whether
`transcodeAndUpload` returned normally; `processEffect` abstracts the
store writes it performed (progress updates, mp4Url); `outcome` is the
webhook oracle.  A parse throw lands in the outer catch, which acks and
fails to re-parse; an unacquirable record is acked and skipped; after a
successful acquisition the message is acked early and never re-acked. -/
def workerHandleMessage (bucket endpoint : String) (now : Nat) (parse : ParseOutcome)
    (processOk : Bool) (processEffect : Store → Store) (outcome : WebhookOutcome)
    (store : Store) : WorkerResult :=
  match parse with
  | .malformed => { store := store, actions := [.ack], webhookAttempts := 0 }
  | .nullJob => { store := store, actions := [.ack], webhookAttempts := 0 }
  | .parsed job =>
    let t := safelyTransitionToProcessing store job.uploadId
    if !t.2.1 then { store := t.1, actions := [.ack], webhookAttempts := 0 }
    else if processOk then workerOnSuccess bucket endpoint now job outcome (processEffect t.1)
    else workerOnError now job outcome (processEffect t.1)

/-! Lemmas about the record store. -/

theorem getVideoRecord_cons (kv : String × VRecord) (rest : Store) (id : String) :
    getVideoRecord (kv :: rest) id =
      if kv.1 == id then some kv.2 else getVideoRecord rest id := by
  simp only [getVideoRecord, List.find?_cons]
  cases h : (kv.1 == id) <;> simp [h]

theorem storeWrite_cons (kv : String × VRecord) (rest : Store) (id : String) (v : VRecord) :
    storeWrite (kv :: rest) id v =
      (if kv.1 == id then (kv.1, v) else kv) :: storeWrite rest id v := rfl

theorem getVideoRecord_storeWrite_self (store : Store) (id : String) (v : VRecord) :
    getVideoRecord (storeWrite store id v) id =
      (getVideoRecord store id).map (fun _ => v) := by
  induction store with
  | nil => rfl
  | cons kv rest ih =>
    rw [storeWrite_cons, getVideoRecord_cons, getVideoRecord_cons]
    cases h : (kv.1 == id) <;> simp [h, ih]

theorem getVideoRecord_storeWrite_other (store : Store) (id id2 : String) (v : VRecord)
    (hne : id2 ≠ id) :
    getVideoRecord (storeWrite store id v) id2 = getVideoRecord store id2 := by
  induction store with
  | nil => rfl
  | cons kv rest ih =>
    rw [storeWrite_cons, getVideoRecord_cons, getVideoRecord_cons]
    cases h1 : (kv.1 == id) with
    | false => simp [h1, ih]
    | true =>
      have hkv : kv.1 = id := by simpa [beq_iff_eq] using h1
      have hne2 : ¬ id = id2 := fun hq => hne hq.symm
      simp [h1, hkv, hne2, ih]

theorem acquireMap_cons (kv : String × VRecord) (rest : Store) (id : String) :
    acquireMap (kv :: rest) id =
      (if kv.1 == id && acquireCond kv.2 then (kv.1, acquireRow kv.2) else kv) ::
        acquireMap rest id := rfl

theorem getVideoRecord_acquireMap_self (store : Store) (id : String) (r : VRecord)
    (h : getVideoRecord store id = some r) (hc : acquireCond r = true) :
    getVideoRecord (acquireMap store id) id = some (acquireRow r) := by
  induction store with
  | nil => simp [getVideoRecord] at h
  | cons kv rest ih =>
    rw [getVideoRecord_cons] at h
    rw [acquireMap_cons, getVideoRecord_cons]
    cases h1 : (kv.1 == id) with
    | false =>
      rw [h1] at h
      simp only [h1, Bool.false_and, if_neg Bool.false_ne_true, if_false]
      exact ih (by simpa using h)
    | true =>
      rw [h1] at h
      simp only [if_pos rfl] at h
      cases h
      simp [h1, hc]

theorem getVideoRecord_acquireMap_other (store : Store) (id id2 : String)
    (hne : id2 ≠ id) :
    getVideoRecord (acquireMap store id) id2 = getVideoRecord store id2 := by
  induction store with
  | nil => rfl
  | cons kv rest ih =>
    rw [acquireMap_cons, getVideoRecord_cons, getVideoRecord_cons]
    cases h1 : (kv.1 == id) with
    | false => simp [h1, ih]
    | true =>
      have hkv : kv.1 = id := by simpa [beq_iff_eq] using h1
      have hne2 : ¬ id = id2 := fun hq => hne hq.symm
      cases hc : acquireCond kv.2 <;> simp [h1, hkv, hne2, hc, ih]

theorem acquireChanges_pos (store : Store) (id : String) (r : VRecord)
    (h : getVideoRecord store id = some r) (hc : acquireCond r = true) :
    0 < acquireChanges store id := by
  unfold getVideoRecord at h
  obtain ⟨kv0, hfind, hsnd⟩ := Option.map_eq_some'.mp h
  have hmem : kv0 ∈ store := List.mem_of_find?_eq_some hfind
  have hpred := List.find?_some hfind
  have : kv0 ∈ store.filter (fun kv => kv.1 == id && acquireCond kv.2) := by
    refine List.mem_filter.mpr ⟨hmem, ?_⟩
    simp only at hpred
    simp [hpred, hsnd, hc]
  exact List.length_pos_of_mem this

theorem updateVideoRecord_found (now : Nat) (store : Store) (id : String) (p : VPatch)
    (r : VRecord) (h : getVideoRecord store id = some r) :
    updateVideoRecord now store id p =
      (storeWrite store id (mergedRecord now r p), some (mergedRecord now r p)) := by
  unfold updateVideoRecord
  rw [h]

/-- C1.  `safelyTransitionToProcessing(id)` succeeds iff the record exists
and its status is uploading or failed, or processing with progress ≤ 10
(the `acquireCond` guard); on success the row becomes status processing
with progress 10 (`acquireRow`) and that updated record is returned, other
rows being untouched; in every other case it returns success = false with
the store unchanged (returning the record as read, or `none` when the id is
unknown). -/
theorem tryAcquire_spec (store : Store) (id : String) :
    (getVideoRecord store id = none →
        safelyTransitionToProcessing store id = (store, false, none))
  ∧ (∀ r, getVideoRecord store id = some r → acquireCond r = false →
        safelyTransitionToProcessing store id = (store, false, some r))
  ∧ (∀ r, getVideoRecord store id = some r → acquireCond r = true →
        safelyTransitionToProcessing store id =
            (acquireMap store id, true, some (acquireRow r))
          ∧ getVideoRecord (acquireMap store id) id = some (acquireRow r)) := by
  refine ⟨?_, ?_, ?_⟩
  · intro h
    unfold safelyTransitionToProcessing
    rw [h]
  · intro r h hc
    unfold safelyTransitionToProcessing
    rw [h]
    cases hs : r.status with
    | uploading => simp [hs, acquireCond] at hc
    | failed => simp [hs, acquireCond] at hc
    | completed => simp [hs]
    | processing =>
      have h10 : 10 < r.progress := by
        simp [hs, acquireCond] at hc
        omega
      simp [hs, h10]
  · intro r h hc
    have hget := getVideoRecord_acquireMap_self store id r h hc
    have hpos := acquireChanges_pos store id r h hc
    refine ⟨?_, hget⟩
    unfold safelyTransitionToProcessing
    rw [h]
    have hnc : (r.status == VStatus.completed) = false := by
      cases hs : r.status <;> simp_all [acquireCond]
    have hnp : (r.status == VStatus.processing && decide (r.progress > 10)) = false := by
      cases hs : r.status <;> simp_all [acquireCond]
    simp [hnc, hnp, hpos, hget]

/-- Witness for C1: a concrete uploading record is acquired. -/
def c1rec : VRecord := { filename := "a.mp4", status := .uploading, progress := 0 }

theorem tryAcquire_spec_witness :
    safelyTransitionToProcessing [("a", c1rec)] "a" =
      (acquireMap [("a", c1rec)] "a", true, some (acquireRow c1rec)) :=
  ((tryAcquire_spec [("a", c1rec)] "a").2.2 c1rec rfl rfl).1

/-- C9.  On an id absent from the store, `updateVideoRecord` returns
`undefined` and writes nothing, and `safelyTransitionToProcessing` returns
`{success: false, record: undefined}` and writes nothing; neither creates a
record (the store value is returned unchanged). -/
theorem missingId_noop (now : Nat) (store : Store) (id : String) (p : VPatch)
    (h : getVideoRecord store id = none) :
    updateVideoRecord now store id p = (store, none) ∧
    safelyTransitionToProcessing store id = (store, false, none) := by
  constructor
  · unfold updateVideoRecord; rw [h]
  · unfold safelyTransitionToProcessing; rw [h]

/-- Witness for C9 at the empty store. -/
theorem missingId_noop_witness :
    updateVideoRecord 0 [] "x" {} = ([], none) ∧
    safelyTransitionToProcessing [] "x" = ([], false, none) :=
  missingId_noop 0 [] "x" {} rfl

/-- C2.  Validator symmetry fails for direct uploads: with the default
configuration (MAX_FILE_SIZE = 100 MiB), the session-creation validation of
`createVideoUpload` accepts the pair ("a.mp4", 157286400 = 150 MiB) for a
direct upload (the direct ceiling is 200 MiB and size errors from
`validateUpload` are filtered out), but the second validation pass at
ingress — `directUpload`'s plain `validateUpload` call — rejects the same
pair, since it applies the 100 MiB ceiling with no direct-upload
allowance. -/
theorem validatorAsymmetry_code_bug :
    createVideoUploadAccepts defaultValidationConfig .direct "a.mp4" 157286400 = true ∧
    directUploadIngressAccepts defaultValidationConfig "a.mp4" 157286400 = false := by
  constructor <;> rfl

/-- The compatibility formula exactly as the claim words it: the video
profile must itself be one of baseline, main, high, constrained
baseline. -/
def claimHlsCompatibleFormula (videoCodec audioCodec videoProfile : String) : Bool :=
  (videoCodec == "h264" && hlsVideoProfiles.contains videoProfile) && (audioCodec == "aac")

/-- Counterexample for C6: a probed h264/aac stream with an absent (empty)
profile is HLS-compatible for the code (`!videoProfile ||` admits it), but
not under the claim's formula, which requires the profile to be in the
four-element set. -/
theorem hlsCompat_counterexample :
    isCompatibleWithHls "h264" "aac" "" = true ∧
    claimHlsCompatibleFormula "h264" "aac" "" = false := by
  constructor <;> rfl

/-- The compatibility formula as amended: an absent (empty) profile is also
accepted, and the profile is compared lowercased. -/
def amendedHlsCompatibleFormula (videoCodec audioCodec videoProfile : String) : Bool :=
  (videoCodec == "h264" &&
    (videoProfile == "" || hlsVideoProfiles.contains (strToLower videoProfile))) &&
  (audioCodec == "aac")

/-- C6 (amended).  `isHlsCompatible` = (video codec h264 and profile empty
or lowercased-profile in the set) and (audio codec aac); the strategy is
copy when compatible, selective when only the video stream is compatible,
reencode otherwise; and on probe failure the fallback info reports strategy
reencode with both codecs "unknown". -/
theorem hlsCompat_amended (v a p : String) :
    isCompatibleWithHls v a p = amendedHlsCompatibleFormula v a p ∧
    determineTranscodingStrategy v a p =
      (if isCompatibleWithHls v a p then Strategy.copy
       else if v == "h264" && (p == "" || hlsVideoProfiles.contains (strToLower p)) then
         Strategy.selective
       else Strategy.reencode) ∧
    probeFailureCodecInfo.recommendedStrategy = Strategy.reencode ∧
    probeFailureCodecInfo.videoCodec = "unknown" ∧
    probeFailureCodecInfo.audioCodec = "unknown" := by
  refine ⟨rfl, ?_, rfl, rfl, rfl⟩
  unfold determineTranscodingStrategy isCompatibleWithHls
  cases hv : (v == "h264" && (p == "" || hlsVideoProfiles.contains (strToLower p))) <;>
    cases ha : (a == "aac") <;> simp [hv, ha]

/-- C7.  When the primary HLS FFmpeg run fails (`hlsOk = false`): for a
copy or selective strategy exactly one fallback run of the full reencode
command on the same input and output is executed, and the step throws iff
that fallback also fails; for a reencode strategy no fallback is attempted
and the step throws. -/
theorem hlsFallback_spec (strategy : Strategy) (restOk fallbackOk : Bool)
    (localPath outputPath : String) :
    ((strategy = .copy ∨ strategy = .selective) →
      (runHlsStep strategy false restOk fallbackOk localPath outputPath).executedCmds =
        [buildOptimizedFFmpegCommand strategy localPath outputPath,
         buildOptimizedFFmpegCommand .reencode localPath outputPath] ∧
      ((runHlsStep strategy false restOk fallbackOk localPath outputPath).failed.isSome
        ↔ fallbackOk = false))
  ∧ (strategy = .reencode →
      (runHlsStep strategy false restOk fallbackOk localPath outputPath).executedCmds =
        [buildOptimizedFFmpegCommand .reencode localPath outputPath] ∧
      (runHlsStep strategy false restOk fallbackOk localPath outputPath).failed.isSome
        = true) := by
  constructor
  · rintro (rfl | rfl) <;> cases fallbackOk <;> simp [runHlsStep]
  · rintro rfl
    simp [runHlsStep]

/-- Witness for C7: a failed copy-strategy run falls back once, and with a
failing fallback the step reports the failure. -/
theorem hlsFallback_spec_witness :
    (runHlsStep .copy false true false "in.mp4" "out.m3u8").executedCmds =
      [buildOptimizedFFmpegCommand .copy "in.mp4" "out.m3u8",
       buildOptimizedFFmpegCommand .reencode "in.mp4" "out.m3u8"] ∧
    ((runHlsStep .copy false true false "in.mp4" "out.m3u8").failed.isSome
      ↔ false = false) :=
  (hlsFallback_spec .copy true false "in.mp4" "out.m3u8").1 (Or.inl rfl)

/-- The object-store key as the claim words it: the slash-trimmed `s3Path`
followed by `/` and the uploadId, or just the uploadId when no (or an
empty) `s3Path` was given. -/
def claimedHlsKey (s3Path : Option String) (uploadId : String) : String :=
  match s3Path with
  | some p => if p == "" then uploadId else jsStripEdgeSlashes p ++ "/" ++ uploadId
  | none => uploadId

/-- C8.  For every stored `s3Path` (the trimmed value accepted at session
creation, also absent), the `videoUrl` computed by `createVideoUpload` and
the `streamUrl` returned by `transcodeAndUpload` for the same uploadId are
the identical string `bucket.endpoint/key/index.m3u8` with the key as the
claim describes it. -/
theorem urlRoundTrip_spec (bucket endpoint : String) (s3Path : Option String)
    (uploadId : String) :
    controllerVideoUrl bucket endpoint s3Path uploadId =
      transcoderStreamUrl bucket endpoint s3Path uploadId ∧
    controllerVideoUrl bucket endpoint s3Path uploadId =
      bucket ++ "." ++ endpoint ++ "/" ++ claimedHlsKey s3Path uploadId ++ "/index.m3u8" := by
  constructor <;> cases s3Path <;> rfl

/-- C10.  The consume handler acknowledges every delivered message exactly
once — on unparseable messages, failed acquisition, successful completion
(early ack) and processing error alike — and never performs a nack or
reject. -/
theorem workerAcksExactlyOnce (bucket endpoint : String) (now : Nat) (parse : ParseOutcome)
    (processOk : Bool) (processEffect : Store → Store) (outcome : WebhookOutcome)
    (store : Store) :
    (workerHandleMessage bucket endpoint now parse processOk processEffect outcome
        store).actions = [ChannelAction.ack] := by
  have hs : ∀ job st, (workerOnSuccess bucket endpoint now job outcome st).actions =
      [ChannelAction.ack] := by
    intro job st
    simp only [workerOnSuccess]
    split <;> rfl
  have he : ∀ job st, (workerOnError now job outcome st).actions = [ChannelAction.ack] := by
    intro job st
    simp only [workerOnError]
    split <;> rfl
  cases parse with
  | malformed => rfl
  | nullJob => rfl
  | parsed job =>
    simp only [workerHandleMessage]
    split
    · rfl
    · split
      · exact hs job _
      · exact he job _

theorem mem_pendingCallbacks (store : Store) (r : VRecord)
    (hmem : r ∈ getVideosWithPendingCallbacks store) : pendingCallbackCond r = true := by
  unfold getVideosWithPendingCallbacks at hmem
  obtain ⟨kv, hkv, rfl⟩ := List.mem_map.mp hmem
  exact (List.mem_filter.mp hkv).2

/-- C4 (amended).  The sweeper query selects only records with a non-null
callbackUrl, callbackStatus pending, callbackRetryCount < 4 and status
completed — so once callbackStatus is completed or failed, the sweeper
never drives another POST for the record — and one sweeper attempt on a
selected record keeps callbackRetryCount ≤ MAX_CALLBACK_ATTEMPTS = 4.  (The
worker's inline attempt, by contrast, does not consult callbackStatus; see
the counterexample.) -/
theorem callbackTerminal_amended (store : Store) (r : VRecord) (now : Nat)
    (o : WebhookOutcome) :
    (r ∈ getVideosWithPendingCallbacks store →
        r.callbackStatus = CbStatus.pending ∧ r.callbackRetryCount < 4 ∧
        r.status = VStatus.completed ∧ r.callbackUrl.isSome = true)
  ∧ ((r.callbackStatus = CbStatus.completed ∨ r.callbackStatus = CbStatus.failed) →
        r ∉ getVideosWithPendingCallbacks store)
  ∧ (r.callbackRetryCount < 4 →
        (sweeperAttemptRecord now o r).callbackRetryCount ≤ 4) := by
  have hsel : ∀ hmem : r ∈ getVideosWithPendingCallbacks store,
      r.callbackStatus = CbStatus.pending ∧ r.callbackRetryCount < 4 ∧
      r.status = VStatus.completed ∧ r.callbackUrl.isSome = true := by
    intro hmem
    have hc := mem_pendingCallbacks store r hmem
    simp [pendingCallbackCond] at hc
    exact ⟨hc.1.1.2, hc.1.2, hc.2, hc.1.1.1⟩
  refine ⟨hsel, ?_, ?_⟩
  · intro hterm hmem
    have := (hsel hmem).1
    cases hterm <;> simp_all
  · intro h4
    cases o with
    | ok200 => simpa [sweeperAttemptRecord] using Nat.le_of_lt h4
    | non200 =>
      simp only [sweeperAttemptRecord]
      split <;> (show r.callbackRetryCount + 1 ≤ 4; omega)
    | transportError =>
      simp only [sweeperAttemptRecord]
      split <;> (show r.callbackRetryCount + 1 ≤ 4; omega)

/-- Sweeper-attempt witness record for C4 (three retries already spent). -/
def c4wrec : VRecord :=
  { filename := "w.mp4", status := .completed, progress := 100,
    callbackUrl := some "http://cb.example/hook", callbackStatus := .pending,
    callbackRetryCount := 3 }

theorem callbackTerminal_amended_witness :
    (sweeperAttemptRecord 9 .non200 c4wrec).callbackRetryCount ≤ 4 :=
  (callbackTerminal_amended [] c4wrec 9 .non200).2.2 (by decide)

/-- A record whose success callback already completed, but whose processing
previously failed — exactly the state a redelivered queue message finds. -/
def c4crec : VRecord :=
  { filename := "f.mp4", status := .failed, progress := 50,
    error := some "boom", callbackUrl := some "http://cb.example/hook",
    callbackStatus := .completed, callbackRetryCount := 0 }

def c4job : Job :=
  { uploadId := "vid1", filePath := "/tmp/vid1", filename := "f.mp4",
    callbackUrl := some "http://cb.example/hook" }

/-- Counterexample for C4: with callbackStatus already terminal
(completed), a redelivery of the job re-acquires the record (its status is
failed, so the atomic guard passes) and the worker's inline webhook code —
which checks only `job.callbackUrl && updatedRecord` — attempts another
POST. -/
theorem callbackTerminal_counterexample :
    c4crec.callbackStatus = CbStatus.completed ∧
    (workerHandleMessage "bucket" "endpoint" 7 (.parsed c4job) true (fun s => s) .ok200
        [("vid1", c4crec)]).webhookAttempts = 1 := by
  constructor <;> rfl

/-- C5 (amended).  A worker webhook attempt on HTTP 200 sets callbackStatus
completed and stamps callbackLastAttempt; on any other outcome it writes
`callbackRetryCount: 1` — an absolute write, not an increment — stamps
callbackLastAttempt and leaves callbackStatus as it was; the escalation to
callbackStatus failed upon the retry count reaching
MAX_CALLBACK_ATTEMPTS = 4 is performed by the sweeper, which does increment
the count. -/
theorem webhookRetry_amended (now : Nat) (o : WebhookOutcome) (store : Store) (id : String)
    (r : VRecord) (h : getVideoRecord store id = some r) :
    (o = .ok200 →
      getVideoRecord (workerWebhookAttempt now o store id) id =
        some { r with callbackStatus := CbStatus.completed,
                      callbackLastAttempt := some now })
  ∧ (o ≠ .ok200 →
      getVideoRecord (workerWebhookAttempt now o store id) id =
        some { r with callbackRetryCount := 1, callbackLastAttempt := some now })
  ∧ (o ≠ .ok200 →
      (sweeperAttemptRecord now o r).callbackRetryCount = r.callbackRetryCount + 1 ∧
      (3 ≤ r.callbackRetryCount →
        (sweeperAttemptRecord now o r).callbackStatus = CbStatus.failed)) := by
  cases o with
  | ok200 =>
    refine ⟨fun _ => ?_, fun hne => absurd rfl hne, fun hne => absurd rfl hne⟩
    simp only [workerWebhookAttempt]
    rw [updateVideoRecord_found now store id _ r h, getVideoRecord_storeWrite_self, h]
    rfl
  | non200 =>
    refine ⟨fun he => absurd he (by decide), fun _ => ?_, fun _ => ⟨?_, ?_⟩⟩
    · simp only [workerWebhookAttempt]
      rw [updateVideoRecord_found now store id _ r h, getVideoRecord_storeWrite_self, h]
      rfl
    · simp only [sweeperAttemptRecord]
      split <;> rfl
    · intro h3
      simp only [sweeperAttemptRecord]
      rw [if_pos (by simp; omega)]
  | transportError =>
    refine ⟨fun he => absurd he (by decide), fun _ => ?_, fun _ => ⟨?_, ?_⟩⟩
    · simp only [workerWebhookAttempt]
      rw [updateVideoRecord_found now store id _ r h, getVideoRecord_storeWrite_self, h]
      rfl
    · simp only [sweeperAttemptRecord]
      split <;> rfl
    · intro h3
      simp only [sweeperAttemptRecord]
      rw [if_pos (by simp; omega)]

/-- A worker-attempt record with one retry already recorded: the state a
redelivered message reaches after a first failed inline attempt. -/
def c5rec : VRecord :=
  { filename := "f.mp4", status := .failed, progress := 50,
    error := some "boom", callbackUrl := some "http://cb.example/hook",
    callbackStatus := .pending, callbackRetryCount := 1 }

/-- Counterexample for C5: on a non-200 outcome with a prior
callbackRetryCount of 1, the worker writes 1 again instead of incrementing
to 2. -/
theorem webhookRetry_counterexample :
    (getVideoRecord (workerWebhookAttempt 5 .non200 [("v1", c5rec)] "v1") "v1").map
        (fun r => r.callbackRetryCount) = some 1 ∧
    (getVideoRecord (workerWebhookAttempt 5 .non200 [("v1", c5rec)] "v1") "v1").map
        (fun r => r.callbackRetryCount) ≠ some (c5rec.callbackRetryCount + 1) := by
  constructor
  · rfl
  · decide

/-- Witness for C5: an HTTP-200 attempt marks the callback completed. -/
theorem webhookRetry_amended_witness :
    getVideoRecord (workerWebhookAttempt 5 .ok200 [("v1", c5rec)] "v1") "v1" =
      some { c5rec with callbackStatus := CbStatus.completed,
                        callbackLastAttempt := some 5 } :=
  (webhookRetry_amended 5 .ok200 [("v1", c5rec)] "v1" c5rec rfl).1 rfl

/-- Counterexample for C3: a job with uploadToS3 = true on a non-MP4
container (with both MP4 steps succeeding, strategy reencode, few output
files) produces the write sequence 10, 25, 60, 75, 70, 85, 80, 95, 100 —
`convertToMp4` writes 70 after the 75 of the thumbnail stage, and the
post-transcode write of 80 follows `uploadMp4ToS3`'s 85. -/
theorem progressMonotone_counterexample :
    workerRunProgressWrites .reencode true false true true 0 =
      [10, 25, 60, 75, 70, 85, 80, 95, 100] ∧
    nonDecreasing (workerRunProgressWrites .reencode true false true true 0) = false := by
  constructor <;> rfl

theorem nonDecreasing_iff_chain : ∀ l : List Nat,
    nonDecreasing l = true ↔ l.Chain' (· ≤ ·)
  | [] => by simp [nonDecreasing]
  | [a] => by simp [nonDecreasing]
  | a :: b :: rest => by
    have ih := nonDecreasing_iff_chain (b :: rest)
    simp [nonDecreasing, List.chain'_cons, ih, Bool.and_eq_true, decide_eq_true_eq]

theorem uploadFileProgressWrites_sorted (t : Nat) :
    (uploadFileProgressWrites t).Chain' (· ≤ ·) := by
  unfold uploadFileProgressWrites
  split
  · refine List.Pairwise.chain' (List.pairwise_map.mpr ((List.pairwise_lt_range _).imp ?_))
    intro i j hij
    have h1 : (i + 1) * 5 * 15 ≤ (j + 1) * 5 * 15 :=
      Nat.mul_le_mul_right _ (Nat.mul_le_mul_right _ (Nat.succ_le_succ (Nat.le_of_lt hij)))
    exact min_le_min (Nat.add_le_add_right (Nat.div_le_div_right h1) 80) le_rfl
  · exact List.chain'_nil

theorem uploadFileProgressWrites_bounds (t x : Nat)
    (hx : x ∈ uploadFileProgressWrites t) : 80 ≤ x ∧ x ≤ 95 := by
  unfold uploadFileProgressWrites at hx
  split at hx
  · obtain ⟨k, hk, rfl⟩ := List.mem_map.mp hx
    exact ⟨le_min (Nat.le_add_left 80 _) (by norm_num), min_le_right _ _⟩
  · simp at hx

/-- C3 (amended).  The progress sequence of a run is non-decreasing for
jobs with uploadToS3 = false whose strategy is selective or reencode, or
copy with at most 10 published files.  It is NOT non-decreasing in general:
with uploadToS3 = true the MP4 stage writes 70 after 75 (and 80 after 85),
and a copy-strategy job with more than 10 published files starts the
publisher's 80-95 band below the 85 already written. -/
theorem progressMonotone_amended (strategy : Strategy)
    (containerIsMp4 convertOk uploadOk : Bool) (totalFiles : Nat)
    (hcopy : strategy = .copy → totalFiles ≤ 10) :
    nonDecreasing
      (workerRunProgressWrites strategy false containerIsMp4 convertOk uploadOk totalFiles)
      = true := by
  cases strategy with
  | copy =>
    have ht : totalFiles ≤ 10 := hcopy rfl
    have hw : uploadFileProgressWrites totalFiles = [] := by
      unfold uploadFileProgressWrites
      rw [if_neg]
      simp
      omega
    have hform : workerRunProgressWrites .copy false containerIsMp4 convertOk uploadOk
        totalFiles = [10, 25, 60, 75, 85, 95, 100] := by
      simp [workerRunProgressWrites, transcodeProgressWrites, hw]
    rw [hform]
    rfl
  | selective =>
    have hform : workerRunProgressWrites .selective false containerIsMp4 convertOk uploadOk
        totalFiles =
        10 :: 25 :: 60 :: 75 :: 80 :: (uploadFileProgressWrites totalFiles ++ [95, 100]) := by
      simp [workerRunProgressWrites, transcodeProgressWrites]
    rw [hform, nonDecreasing_iff_chain]
    refine List.chain'_cons.mpr ⟨by norm_num, ?_⟩
    refine List.chain'_cons.mpr ⟨by norm_num, ?_⟩
    refine List.chain'_cons.mpr ⟨by norm_num, ?_⟩
    refine List.chain'_cons.mpr ⟨by norm_num, ?_⟩
    refine List.chain'_cons'.mpr ⟨?_, ?_⟩
    · intro y hy
      cases hu : uploadFileProgressWrites totalFiles with
      | nil => rw [hu] at hy; simp at hy; omega
      | cons a l =>
        rw [hu] at hy
        simp at hy
        subst hy
        exact (uploadFileProgressWrites_bounds totalFiles a
          (hu ▸ List.mem_cons_self a l)).1
    · refine List.chain'_append.mpr ⟨uploadFileProgressWrites_sorted totalFiles, ?_, ?_⟩
      · exact List.chain'_cons.mpr ⟨by norm_num, List.chain'_singleton _⟩
      · intro x hx y hy
        simp at hy
        subst hy
        obtain ⟨hne, hlast⟩ := List.mem_getLast?_eq_getLast hx
        exact (uploadFileProgressWrites_bounds totalFiles x
          (hlast ▸ List.getLast_mem hne)).2
  | reencode =>
    have hform : workerRunProgressWrites .reencode false containerIsMp4 convertOk uploadOk
        totalFiles =
        10 :: 25 :: 60 :: 75 :: 80 :: (uploadFileProgressWrites totalFiles ++ [95, 100]) := by
      simp [workerRunProgressWrites, transcodeProgressWrites]
    rw [hform, nonDecreasing_iff_chain]
    refine List.chain'_cons.mpr ⟨by norm_num, ?_⟩
    refine List.chain'_cons.mpr ⟨by norm_num, ?_⟩
    refine List.chain'_cons.mpr ⟨by norm_num, ?_⟩
    refine List.chain'_cons.mpr ⟨by norm_num, ?_⟩
    refine List.chain'_cons'.mpr ⟨?_, ?_⟩
    · intro y hy
      cases hu : uploadFileProgressWrites totalFiles with
      | nil => rw [hu] at hy; simp at hy; omega
      | cons a l =>
        rw [hu] at hy
        simp at hy
        subst hy
        exact (uploadFileProgressWrites_bounds totalFiles a
          (hu ▸ List.mem_cons_self a l)).1
    · refine List.chain'_append.mpr ⟨uploadFileProgressWrites_sorted totalFiles, ?_, ?_⟩
      · exact List.chain'_cons.mpr ⟨by norm_num, List.chain'_singleton _⟩
      · intro x hx y hy
        simp at hy
        subst hy
        obtain ⟨hne, hlast⟩ := List.mem_getLast?_eq_getLast hx
        exact (uploadFileProgressWrites_bounds totalFiles x
          (hlast ▸ List.getLast_mem hne)).2

/-- Witness for C3 (amended): a reencode run without uploadToS3 and 100
published files is monotone. -/
theorem progressMonotone_amended_witness :
    nonDecreasing (workerRunProgressWrites .reencode false false false false 100) = true :=
  progressMonotone_amended .reencode false false false 100 (by decide)

end VellumStream
